import Mathlib

/-!
Verification of the mortgage-rate-tracker Rate Extraction Engine.

This file gives a shallow embedding of the core of the repository:
`create_bank_config.py` (pattern synthesis), `loan_rate_agent.py`
(the batch scrape / replay loop) and the config (de)serialization in
`app.py`, and proves or refutes the frozen claims about them.

Python strings are modelled as Lean `String` / `List Char` (ASCII
content assumed, which covers every string the code manipulates);
Python floats obtained from `float("d+.d+")` are modelled as exact
rationals (`decToQ`), sound for the short decimal literals involved
since conversion of such decimals to IEEE doubles is injective and
order preserving; Python `str(float(...))` is modelled by trimming
leading/trailing zeros (`pyRepr`), which agrees with the shortest
round-trip repr for these values.  Fallible Python operations
(navigation, `frame.inner_text`, `re.search` on stored patterns,
`match.group`) are modelled with `Option` / `Except` / explicit
outcome types.
-/

namespace RateTracker

/-- Python `\s` on ASCII text: space, tab, newline, carriage return,
form feed, vertical tab.  Mirrors the whitespace class used by the
`re` module and by `str.strip`. -/
def isPyWs (c : Char) : Bool :=
  c = ' ' || c = '\t' || c = '\n' || c = '\r' || c.toNat = 12 || c.toNat = 11

/-- ASCII lower-casing of one char, modelling Python `str.lower` on
the ASCII strings this program handles. -/
def lowCh (c : Char) : Char := c.toLower

/-- Lower-case a string (ASCII), modelling Python `str.lower`. -/
def lowerStr (s : String) : String := String.mk (s.data.map lowCh)

/-- Case-insensitive prefix test on char lists. -/
def prefixCI : List Char → List Char → Bool
  | [], _ => true
  | _ :: _, [] => false
  | a :: as, b :: bs => (lowCh a = lowCh b) && prefixCI as bs

/-- Case-sensitive prefix test on char lists. -/
def prefixCS : List Char → List Char → Bool
  | [], _ => true
  | _ :: _, [] => false
  | a :: as, b :: bs => (a = b) && prefixCS as bs

/-- All start indices (in increasing order) at which `pat` occurs
case-insensitively in `s`; `i` is the index of the head of `s`. -/
def occListCI (pat : List Char) : List Char → Nat → List Nat
  | [], i => if pat.isEmpty then [i] else []
  | s@(_ :: rest), i =>
    (if prefixCI pat s then [i] else []) ++ occListCI pat rest (i + 1)

/-- Case-sensitive substring containment on char lists, modelling the
Python `in` operator on strings. -/
def containsL (pat : List Char) : List Char → Bool
  | [] => pat.isEmpty
  | s@(_ :: rest) => prefixCS pat s || containsL pat rest

/-- Python `needle in haystack` for strings. -/
def containsStr (haystack needle : String) : Bool :=
  containsL needle.data haystack.data

/-- Prefix of `s` up to (excluding) the first occurrence of `c`;
models Python `s.split(c)[0]` for a one-char separator. -/
def takeUntilCh (c : Char) (s : List Char) : List Char :=
  s.takeWhile (fun x => x ≠ c)

/-- Python `str.strip()`: drop leading and trailing whitespace. -/
def pyStrip (s : String) : String :=
  String.mk (((s.data.dropWhile isPyWs).reverse.dropWhile isPyWs).reverse)

/-- Python `str.title()` on ASCII: upper-case every letter that
follows a non-letter, lower-case every other letter.  The `prev`
flag records whether the previous char was a letter. -/
def pyTitleAux : Bool → List Char → List Char
  | _, [] => []
  | prev, c :: r =>
    (if c.isAlpha then (if prev then c.toLower else c.toUpper) else c)
      :: pyTitleAux c.isAlpha r

/-- Python `str.title()` on ASCII strings. -/
def pyTitle (s : String) : String := String.mk (pyTitleAux false s.data)

/-- One step of Python `str.replace(pat, rep)`: scan left to right,
replace non-overlapping occurrences, never rescanning the
replacement.  `fuel` bounds recursion (passed as the input length). -/
def replaceAux (pat rep : List Char) : Nat → List Char → List Char
  | 0, s => s
  | _ + 1, [] => []
  | fuel + 1, s@(c :: rest) =>
    if prefixCS pat s ∧ ¬ pat.isEmpty then
      rep ++ replaceAux pat rep fuel (s.drop pat.length)
    else
      c :: replaceAux pat rep fuel rest

/-- Python `s.replace(pat, rep)` for nonempty `pat`. -/
def pyReplace (s pat rep : String) : String :=
  String.mk (replaceAux pat.data rep.data s.data.length s.data)

/-- Suffix of `s` after the first occurrence of `pat`; `none` when
`pat` does not occur. -/
def afterSub (pat : List Char) : List Char → Option (List Char)
  | [] => if pat.isEmpty then some [] else none
  | s@(_ :: rest) =>
    if prefixCS pat s then some (s.drop pat.length) else afterSub pat rest

/-- Network location of a URL, modelling `urllib.parse.urlparse(url).netloc`
for the absolute `scheme://netloc/...` URLs this program receives:
everything after the first `://` up to the next `/`, `?` or `#`
(empty when no `://` is present, as `urlparse` yields for
scheme-less input). -/
def netloc (url : String) : String :=
  match afterSub "://".data url.data with
  | none => ""
  | some rest =>
    String.mk (rest.takeWhile (fun c => c ≠ '/' && c ≠ '?' && c ≠ '#'))

/-- Value of a digit list, most significant first. -/
def digitsToNat (l : List Char) : Nat :=
  l.foldl (fun n c => 10 * n + (c.toNat - 48)) 0

/-- Decimal literal `d+.d+` captured by the synthesis regexes:
integer-part digits and fraction-part digits, exactly as written. -/
structure Dec where
  ip : List Char
  fp : List Char
deriving DecidableEq

/-- Exact rational value of a decimal literal; models Python
`float("ip.fp")` (exact for the short rate/APR decimals involved,
whose conversion to IEEE doubles is injective and order preserving). -/
def decToQ (d : Dec) : ℚ :=
  mkRat (digitsToNat d.ip * 10 ^ d.fp.length + digitsToNat d.fp) (10 ^ d.fp.length)

/-- Digit list with leading zeros removed, keeping at least one digit. -/
def stripLeadZeros (l : List Char) : List Char :=
  match l.dropWhile (fun c => c = '0') with
  | [] => ['0']
  | r => r

/-- Digit list with trailing zeros removed, keeping at least one digit. -/
def stripTrailZeros (l : List Char) : List Char :=
  match (l.reverse.dropWhile (fun c => c = '0')).reverse with
  | [] => ['0']
  | r => r

/-- Python `str(float("ip.fp"))` for the short decimal literals this
program extracts: the shortest round-trip repr, i.e. the literal with
leading and trailing zeros trimmed (one digit kept on each side). -/
def pyRepr (d : Dec) : String :=
  String.mk (stripLeadZeros d.ip ++ '.' :: stripTrailZeros d.fp)

/-- The decimal exactly as written in the page text (used where the
code interpolates a raw match group rather than a float). -/
def decStr (d : Dec) : String := String.mk (d.ip ++ '.' :: d.fp)

/-!
Semantics of the two regex shapes used by the synthesizer in
`create_bank_config.py`.

`decTokenAt ws s` matches the regex fragment `(\d+\.\d+)\s*%` (when
`ws = true`) or `(\d+\.\d+)%` (when `ws = false`) at the head of `s`:
a maximal digit run, a dot, a maximal digit run, optional whitespace,
then `%`.  Because the digit runs are maximal and `.`/`%` are not
digits, backtracking inside `\d+` cannot produce any other parse, so
this deterministic reading is exactly the regex's.  It returns the
captured decimal and the number of characters consumed. -/
def decTokenAt (ws : Bool) (s : List Char) : Option (Dec × Nat) :=
  let d1 := s.takeWhile Char.isDigit
  let r1 := s.dropWhile Char.isDigit
  if d1.isEmpty then none else
  match r1 with
  | '.' :: r2 =>
    let d2 := r2.takeWhile Char.isDigit
    let r3 := r2.dropWhile Char.isDigit
    if d2.isEmpty then none else
    let wsRun := if ws then r3.takeWhile isPyWs else []
    let r4 := if ws then r3.dropWhile isPyWs else r3
    match r4 with
    | '%' :: _ =>
      some (⟨d1, d2⟩, d1.length + 1 + d2.length + wsRun.length + 1)
    | _ => none
  | _ => none

/-- All positions where a `(\d+\.\d+)\s*%`-token (or the `%`-adjacent
variant) matches in the text, listed as `(start, value, end)` with
`end` the index just past the `%`.  `i` is the index of the head of
the list.  Every start position is listed (a Python regex may begin a
capture at any offset reached by the preceding lazy gap). -/
def tokensFrom (ws : Bool) : List Char → Nat → List (Nat × Dec × Nat)
  | [], _ => []
  | s@(_ :: rest), i =>
    (match decTokenAt ws s with
     | some (d, len) => [(i, d, i + len)]
     | none => []) ++ tokensFrom ws rest (i + 1)

/-- First token in `toks` whose start lies in `[lo, lo + gap]`,
together with its end index.  `toks` is in increasing start order, so
this is the candidate a lazy gap `.{0,gap}?` reaches first. -/
def firstTokIn (lo gap : Nat) : List (Nat × Dec × Nat) → Option (Dec × Nat)
  | [] => none
  | (st, d, en) :: rest =>
    if lo ≤ st ∧ st ≤ lo + gap then some (d, en) else firstTokIn lo gap rest

/-- Completion of the broad probe
`term.{0,150}?(\d+\.\d+)\s*%.{0,50}?(\d+\.\d+)\s*%(?:.{0,50}?(\d+\.\d+)\s*%)?`
from position `e` (the end of the matched term): Python's lazy
backtracking tries the first-capture candidates in increasing start
order; for each, the second capture is the first token within 50
characters of its end (no later choice can help, so failure here
backtracks the first capture); the optional third group is greedy and
takes the first token within 50 characters of the second, or is
skipped. -/
def probeTripleGo (toks : List (Nat × Dec × Nat)) (e : Nat) :
    List (Nat × Dec × Nat) → Option (Dec × Dec × Option Dec)
  | [] => none
  | (st, d, en) :: rest =>
    if e ≤ st ∧ st ≤ e + 150 then
      match firstTokIn en 50 toks with
      | some (d2, en2) =>
        some (d, d2, (firstTokIn en2 50 toks).map Prod.fst)
      | none => probeTripleGo toks e rest
    else probeTripleGo toks e rest

/-- Probe completion from term-end position `e` (see `probeTripleGo`). -/
def probeTriple (toks : List (Nat × Dec × Nat)) (e : Nat) :
    Option (Dec × Dec × Option Dec) :=
  probeTripleGo toks e toks

/-- Try probe completion at each term occurrence in order. -/
def probeSearchGo (toks : List (Nat × Dec × Nat)) (tlen : Nat) :
    List Nat → Option (Dec × Dec × Option Dec)
  | [] => none
  | i :: rest =>
    match probeTriple toks (i + tlen) with
    | some r => some r
    | none => probeSearchGo toks tlen rest

/-- Search of the broad probe regex built at
`create_bank_config.py:112` against `text`: Python `re.search` tries
match starts left to right, and a match can only start at a
(case-insensitive) occurrence of the escaped `term`; the first
occurrence from which the probe completes wins. -/
def probeSearch (term text : String) : Option (Dec × Dec × Option Dec) :=
  probeSearchGo (tokensFrom true text.data 0) term.data.length
    (occListCI term.data text.data 0)

/-- Character class `[a-zA-Z\s]` of the optional descriptive-words
gap in the table-row regexes. -/
def isAlphaWs (c : Char) : Bool := c.isAlpha || isPyWs c

/-- Character at index `i`, or space when out of range (only used
with in-range indices). -/
def charAt (tl : List Char) (i : Nat) : Char :=
  match tl.drop i with
  | c :: _ => c
  | [] => ' '

/-- Completion of the regex fragment
`\s+(?:[a-zA-Z\s]+\s+)?(\d+\.\d+)%` and the following
`\s+(\d+\.\d+)%` repetitions at position `e` (just past the years
numeral).  The gap `\s+(?:[a-zA-Z\s]+\s+)?` matches precisely the
nonempty strings over letters-and-whitespace that begin and end with
whitespace; since the following capture must begin with a digit, the
gap can only be the maximal letters-and-whitespace run after `e`, so
the parse is deterministic.  Likewise `\s+` between tokens must be
the maximal whitespace run (no shorter run can be followed by a
digit).  Returns the captured decimals. -/
def tableToks (tl : List Char) (j : Nat) : Nat → Option (List Dec)
  | 0 => some []
  | n + 1 =>
    match decTokenAt false (tl.drop j) with
    | none => none
    | some (d, len) =>
      if n = 0 then some [d]
      else
        let wsRun := (tl.drop (j + len)).takeWhile isPyWs
        if wsRun.isEmpty then none
        else
          match tableToks tl (j + len + wsRun.length) n with
          | some ds => some (d :: ds)
          | none => none

/-- Gap-and-row completion at position `e` (see the section comment
above `tableToks`): the maximal letters-and-whitespace run must be
nonempty and begin and end with whitespace, then the `count` tokens
follow immediately. -/
def tableRowAt (tl : List Char) (e : Nat) (count : Nat) : Option (List Dec) :=
  let gap := (tl.drop e).takeWhile isAlphaWs
  match gap with
  | [] => none
  | g0 :: gr =>
    if isPyWs g0 && isPyWs (gr.getLastD g0) then
      tableToks tl (e + gap.length) count
    else none

/-- Occurrences of the years numeral that satisfy the `(?<!\d)`
lookbehind. -/
def yearOccs (years tl : List Char) : List Nat :=
  (occListCI years tl 0).filter
    (fun i => i = 0 || !(charAt tl (i - 1)).isDigit)

/-- Try the table-row regex at each admissible years occurrence in
order (Python `re.search` leftmost semantics). -/
def tableSearchGo (tl : List Char) (ylen count : Nat) :
    List Nat → Option (List Dec)
  | [] => none
  | i :: rest =>
    match tableRowAt tl (i + ylen) count with
    | some ds => some ds
    | none => tableSearchGo tl ylen count rest

/-- Search of `table_pattern_3` from `create_bank_config.py:162`:
`(?<!\d)YY\s+(?:[a-zA-Z\s]+\s+)?(\d+\.\d+)%\s+(\d+\.\d+)%\s+(\d+\.\d+)%`. -/
def tableSearch3 (years text : String) : Option (Dec × Dec × Dec) :=
  match tableSearchGo text.data years.data.length 3
      (yearOccs years.data text.data) with
  | some [a, b, c] => some (a, b, c)
  | _ => none

/-- Search of `table_pattern` from `create_bank_config.py:159`:
`(?<!\d)YY\s+(?:[a-zA-Z\s]+\s+)?(?:0\.000%|\d+\.\d+%)\s+(\d+\.\d+)%\s+(\d+\.\d+)%`.
The skipped leading alternation accepts exactly the same token shape
as `\d+\.\d+%`, so it is one more (uncaptured) token in the row. -/
def tableSearch2 (years text : String) : Option (Dec × Dec) :=
  match tableSearchGo text.data years.data.length 3
      (yearOccs years.data text.data) with
  | some [_, b, c] => some (b, c)
  | _ => none

/-!
Name discovery (`create_bank_config.py:34-55`).
-/

/-- Character class `[a-zA-Z0-9'\s]` of the bank-name regex. -/
def nameClassCh (c : Char) : Bool :=
  c.isAlpha || c.isDigit || c.toNat = 39 || isPyWs c

/-- Upper-case ASCII letter, the regex class `[A-Z]`. -/
def isUpperAZ (c : Char) : Bool := 'A' ≤ c && c ≤ 'Z'

/-- Greedy backtracking of `[a-zA-Z0-9'\s]+(?:Bank|Credit Union)`
after the initial capital at the head of `afterCap`: the `+` consumes
`L` characters of the maximal class run (largest `L` first, at least
one), then the alternation tries `Bank` before `Credit Union`. -/
def nameTailAt (afterCap : List Char) : Nat → Option (List Char)
  | 0 => none
  | l + 1 =>
    let rem := afterCap.drop (l + 1)
    if prefixCS "Bank".data rem then
      some (afterCap.take (l + 1) ++ "Bank".data)
    else if prefixCS "Credit Union".data rem then
      some (afterCap.take (l + 1) ++ "Credit Union".data)
    else nameTailAt afterCap l

/-- Leftmost match of `([A-Z][a-zA-Z0-9'\s]+(?:Bank|Credit Union))`
(`create_bank_config.py:46`): scan start positions left to right; at
an `[A-Z]` char, backtrack the greedy run as in `nameTailAt`. -/
def nameSearch : List Char → Option (List Char)
  | [] => none
  | c :: rest =>
    if isUpperAZ c then
      let run := rest.takeWhile nameClassCh
      match nameTailAt rest run.length with
      | some tail => some (c :: tail)
      | none => nameSearch rest
    else nameSearch rest

/-- Name discovery from `create_bank_config.py:34-55`: the page title
is cut at the first `|`, then at the first `-`, and stripped; if the
candidate does not contain "bank" or "credit union"
(case-insensitively) the body text is searched for a capitalized name
ending in Bank/Credit Union; failing that, the URL host with every
occurrence of `"www."` removed (`str.replace` replaces all
occurrences) supplies `host.split('.')[0].title() + " (Auto-named)"`. -/
def deriveName (title mainText url : String) : String :=
  let name := pyStrip (String.mk (takeUntilCh '-' (takeUntilCh '|' title.data)))
  if containsStr (lowerStr name) "bank" || containsStr (lowerStr name) "credit union" then
    name
  else
    match nameSearch mainText.data with
    | some m => pyStrip (String.mk m)
    | none =>
      let domain := netloc url
      let domain := if containsStr domain "www." then pyReplace domain "www." "" else domain
      pyTitle (String.mk (takeUntilCh '.' domain.data)) ++ " (Auto-named)"

/-!
Pattern synthesis (`create_bank_config.py:60-203`).
-/

/-- Synonym anchor phrases for "Fixed 30" (`create_bank_config.py:62`). -/
def fixed30Terms : List String :=
  ["30 Year Fixed", "Fixed 30", "30-Year Fixed", "Conventional 30", "Conforming 30"]

/-- Synonym anchor phrases for "Fixed 15" (`create_bank_config.py:63`). -/
def fixed15Terms : List String :=
  ["15 Year Fixed", "Fixed 15", "15-Year Fixed", "Conventional 15", "Conforming 15"]

/-- The anchor keyword table, in declaration order. -/
def keywordTable : List (String × List String) :=
  [("Fixed 30", fixed30Terms), ("Fixed 15", fixed15Terms)]

/-- All synonyms in iteration order of `keywords.values()`. -/
def allTerms : List String := fixed30Terms ++ fixed15Terms

/-- Sample values recorded alongside a synthesized pattern. -/
structure Found where
  rate : String
  apr : String
deriving DecidableEq

/-- `term.replace(" ", r"\s*")` (`create_bank_config.py:120`). -/
def cleanTerm (t : String) : String := pyReplace t " " "\\s*"

/-- The two-capture keyword pattern (`create_bank_config.py:138`). -/
def patK2 (clean : String) : String :=
  clean ++ ".*?(\\d+\\.\\d+)\\s*%.*?(\\d+\\.\\d+)\\s*%"

/-- The points-skipping keyword pattern (`create_bank_config.py:136`). -/
def patK3 (clean : String) : String :=
  clean ++ ".*?(\\d+\\.\\d+)\\s*%.*?(?:\\d+\\.\\d+\\s*%).*?(\\d+\\.\\d+)\\s*%"

/-- The points-skipping three-number table pattern
(`create_bank_config.py:172`). -/
def patT3 (years : String) : String :=
  "(?<!\\d)" ++ years ++
    "\\s+(?:[a-zA-Z\\s]+\\s+)?(\\d+\\.\\d+)%\\s+(?:\\d+\\.\\d+%)\\s+(\\d+\\.\\d+)%"

/-- The two-capture table pattern (`create_bank_config.py:175`). -/
def patT2 (years : String) : String :=
  "(?<!\\d)" ++ years ++ "\\s+(?:[a-zA-Z\\s]+\\s+)?(\\d+\\.\\d+)%\\s+(\\d+\\.\\d+)%"

/-- `table_pattern` with the explicit skipped points column
(`create_bank_config.py:159`). -/
def patTfull (years : String) : String :=
  "(?<!\\d)" ++ years ++
    "\\s+(?:[a-zA-Z\\s]+\\s+)?(?:0\\.000%|\\d+\\.\\d+%)\\s+(\\d+\\.\\d+)%\\s+(\\d+\\.\\d+)%"

/-- The keyword-path disambiguation of `create_bank_config.py:127-134`:
`rate_val = v1; apr_val = v2; if v3 is not None and v2 < v1: apr_val = v3`. -/
def keywordDisamb (v1 v2 : Dec) (o3 : Option Dec) : Dec × Dec :=
  match o3 with
  | some v3 => if decToQ v2 < decToQ v1 then (v1, v3) else (v1, v2)
  | none => (v1, v2)

/-- The table-path disambiguation of `create_bank_config.py:171-176`:
`if v2 < v1` select `(v1, v3)` else `(v1, v2)`. -/
def tableDisamb (v1 v2 v3 : Dec) : Dec × Dec :=
  if decToQ v2 < decToQ v1 then (v1, v3) else (v1, v2)

/-- Condition choosing the points-skipping pattern in the keyword
path (`create_bank_config.py:132`). -/
def keywordUsesThird (v1 v2 : Dec) (o3 : Option Dec) : Bool :=
  o3.isSome && decide (decToQ v2 < decToQ v1)

/-- First synonym whose probe matches, with the probe's captures
(the inner `for term in search_terms` loop, `create_bank_config.py:100-142`). -/
def keywordFirst : List String → String → Option (String × Dec × Dec × Option Dec)
  | [], _ => none
  | t :: rest, text =>
    match probeSearch t text with
    | some r => some (t, r)
    | none => keywordFirst rest text

/-- Keyword-path synthesis for one loan type: pattern plus sample
values rendered through `float` (`f"{rate_val}%"`). -/
def keywordStep (terms : List String) (text : String) : Option (String × Found) :=
  match keywordFirst terms text with
  | none => none
  | some (t, v1, v2, o3) =>
    let clean := cleanTerm t
    let vals := keywordDisamb v1 v2 o3
    let pat := if keywordUsesThird v1 v2 o3 then patK3 clean else patK2 clean
    some (pat, ⟨pyRepr vals.1 ++ "%", pyRepr vals.2 ++ "%"⟩)

/-- Table-row fallback for one loan type
(`create_bank_config.py:149-186`): the three-number pattern is tried
first; on a match the `v2 < v1` disambiguation picks pattern and
float-rendered samples; otherwise the explicit points-skipping
two-capture pattern is tried, whose samples interpolate the raw match
groups (`f"{table_match.group(1)}%"`). -/
def tableStep (label text : String) : Option (String × Found) :=
  let years := if containsStr label "30" then "30" else "15"
  match tableSearch3 years text with
  | some (v1, v2, v3) =>
    let vals := tableDisamb v1 v2 v3
    if decToQ v2 < decToQ v1 then
      some (patT3 years, ⟨pyRepr vals.1 ++ "%", pyRepr vals.2 ++ "%"⟩)
    else
      some (patT2 years, ⟨pyRepr vals.1 ++ "%", pyRepr vals.2 ++ "%"⟩)
  | none =>
    match tableSearch2 years text with
    | some (s1, s2) => some (patTfull years, ⟨decStr s1 ++ "%", decStr s2 ++ "%"⟩)
    | none => none

/-- Synthesis for one loan type: keyword path, then table fallback
(`if label not in patterns`, `create_bank_config.py:149`). -/
def synthOne (label : String) (terms : List String) (text : String) :
    Option (String × Found) :=
  match keywordStep terms text with
  | some r => some r
  | none => tableStep label text

/-- All synthesized (label, pattern, samples) triples in keyword-table
declaration order. -/
def synthPatterns (text : String) : List (String × String × Found) :=
  keywordTable.filterMap
    (fun lt => (synthOne lt.1 lt.2 text).map (fun r => (lt.1, r)))

/-- Keyword presence check for the main body
(`create_bank_config.py:67-72`). -/
def anyKeywordIn (text : String) : Bool :=
  allTerms.any (fun k => containsStr (lowerStr text) (lowerStr k))

/-- Frame scan of `create_bank_config.py:77-93`: the first frame
whose text is readable and contains some synonym (in keyword-table
order) becomes the target, and that synonym the frame anchor. -/
def scanFrames : List (Except Unit String) → Option (String × String)
  | [] => none
  | .error _ :: rest => scanFrames rest
  | .ok ft :: rest =>
    match allTerms.find? (fun k => containsStr (lowerStr ft) (lowerStr k)) with
    | some k => some (ft, k)
    | none => scanFrames rest

/-- Target text and frame anchor chosen by the synthesizer: the main
body when it contains a keyword, otherwise the first matching frame,
otherwise the main body again (patterns will simply fail). -/
def synthTarget (mainText : String) (frames : List (Except Unit String)) :
    String × Option String :=
  if anyKeywordIn mainText then (mainText, none)
  else
    match scanFrames frames with
    | some (ft, k) => (ft, some k)
    | none => (mainText, none)

/-- A generated source configuration (`new_config`,
`create_bank_config.py:196-202`). -/
structure GenConfig where
  name : String
  url : String
  iframe_check : Option String
  patterns : List (String × String)
  found_values : List (String × Found)
deriving DecidableEq

/-- The core of `analyze_url` (`create_bank_config.py:5-203`) after
the browser has produced the page title, the main body text and the
frame texts: name discovery, target localization, per-loan-type
synthesis, and the `if not patterns: return None` guard. -/
def analyze_url (url title mainText : String)
    (frames : List (Except Unit String)) : Option GenConfig :=
  let name := deriveName title mainText url
  let tgt := synthTarget mainText frames
  let ps := synthPatterns tgt.1
  if ps.isEmpty then none
  else
    some { name := name, url := url, iframe_check := tgt.2,
           patterns := ps.map (fun p => (p.1, p.2.1)),
           found_values := ps.map (fun p => (p.1, p.2.2)) }

/-!
The batch scrape loop (`loan_rate_agent.py:96-179`).

Stored patterns are replayed through Python's `re` module; the
engine, an external collaborator, is modelled as a function from
(pattern, target text) to an outcome: it can raise (`re.error` on an
invalid stored pattern), find no match, or match with the values of
capture groups 1 and 2.  A group can be absent from the pattern
(`match.group(i)` raises `IndexError`), can have matched nothing
(`match.group(i)` is `None`, which the f-string renders as `"None"`),
or can hold text.
-/

/-- Value of one capture group of a match. -/
inductive GroupVal where
  | gAbsent
  | gNull
  | gStr (s : String)
deriving DecidableEq

/-- Outcome of `re.search(pattern, text, re.DOTALL | re.IGNORECASE)`
followed by reading groups 1 and 2. -/
inductive SearchOutcome where
  | engineFail
  | noMatch
  | found (g1 g2 : GroupVal)
deriving DecidableEq

/-- A regex engine: Python `re` applied to a stored pattern. -/
def Engine : Type := String → String → SearchOutcome

/-- A stored source configuration as the scraper consumes it
(`loan_rate_agent.py:61-66`). -/
structure Config where
  name : String
  url : String
  iframe_check : Option String
  patterns : List (String × String)
deriving DecidableEq

/-- One emitted result row (`loan_rate_agent.py:156-162`). -/
structure Row where
  date : String
  bank : String
  loanType : String
  rate : String
  apr : String
deriving DecidableEq

/-- The per-source failure sentinel (`loan_rate_agent.py:168-174`). -/
def errorRow (ts name : String) : Row :=
  ⟨ts, name, "Error", "Error", "Error"⟩

/-- Python truthiness of `config.get('iframe_check')`: an unset or
empty anchor is falsy. -/
def anchorOf (c : Config) : Option String :=
  match c.iframe_check with
  | some s => if s = "" then none else some s
  | none => none

/-- Reading `match.group(i)` and interpolating it into `f"{...}%"`:
an absent group raises `IndexError` (modelled as `none`), a
non-participating group renders as `"None"`. -/
def groupText : GroupVal → Option String
  | .gAbsent => none
  | .gNull => some "None"
  | .gStr s => some s

/-- The row built at `loan_rate_agent.py:156-162`, or `none` when
reading a group raises. -/
def matchRow (ts bank label : String) (g1 g2 : GroupVal) : Option Row :=
  match groupText g1, groupText g2 with
  | some r, some a => some ⟨ts, bank, label, r ++ "%", a ++ "%"⟩
  | _, _ => none

/-- What a source's inner pattern loop emits for one (label, pattern)
pair when nothing raises. -/
def rowOf (ts bank : String) (eng : Engine) (text : String)
    (lp : String × String) : Option Row :=
  match eng lp.2 text with
  | .found g1 g2 => matchRow ts bank lp.1 g1 g2
  | _ => none

/-- The pattern loop of `loan_rate_agent.py:150-164` with the mutable
`results` list threaded as `acc`: matched patterns append a row; a
raised exception (engine failure or absent group) aborts the loop and
the `except` handler appends the error sentinel after the rows
already collected. -/
def matchLoopAux (ts bank : String) (eng : Engine) (text : String) :
    List (String × String) → List Row → List Row
  | [], acc => acc
  | (label, pat) :: rest, acc =>
    match eng pat text with
    | .engineFail => acc ++ [errorRow ts bank]
    | .noMatch => matchLoopAux ts bank eng text rest acc
    | .found g1 g2 =>
      match matchRow ts bank label g1 g2 with
      | none => acc ++ [errorRow ts bank]
      | some row => matchLoopAux ts bank eng text rest (acc ++ [row])

/-- Per-source acquisition outcome: navigation can raise, and each
frame's `inner_text("body")` as well as the main body text can raise
individually. -/
inductive Acq where
  | navFail
  | loaded (frames : List (Except Unit String)) (mainText : Except Unit String)

/-- The frame scan of `loan_rate_agent.py:133-141`: unreadable frames
are skipped, and the first frame whose text contains the anchor as a
literal substring is selected. -/
def findFrame (anchor : String) : List (Except Unit String) → Option String
  | [] => none
  | .error _ :: rest => findFrame anchor rest
  | .ok t :: rest =>
    if containsStr t anchor then some t else findFrame anchor rest

/-- One iteration of the source loop (`loan_rate_agent.py:110-176`):
a navigation failure reaches the `except` handler and yields the
sentinel; with a truthy anchor, a missed frame scan executes
`continue` and yields nothing at all; otherwise the pattern loop
runs, itself guarded by the `except` handler. -/
def processConfig (ts : String) (eng : Engine) (c : Config) (a : Acq) : List Row :=
  match a with
  | .navFail => [errorRow ts c.name]
  | .loaded frames mainText =>
    match anchorOf c with
    | some anchor =>
      match findFrame anchor frames with
      | none => []
      | some t => matchLoopAux ts c.name eng t c.patterns []
    | none =>
      match mainText with
      | .error _ => [errorRow ts c.name]
      | .ok t => matchLoopAux ts c.name eng t c.patterns []

/-- The source loop with the mutable `results` list threaded as
`acc`. -/
def scrapeAux (ts : String) (eng : Engine) :
    List (Config × Acq) → List Row → List Row
  | [], acc => acc
  | (c, a) :: rest, acc => scrapeAux ts eng rest (acc ++ processConfig ts eng c a)

/-- `scrape_rates` (`loan_rate_agent.py:96-179`): the timestamp is
computed once before the loop and each config is processed in list
order against its acquisition outcome. -/
def scrape_rates (ts : String) (eng : Engine) (items : List (Config × Acq)) :
    List Row :=
  scrapeAux ts eng items []

/-!
Config persistence (`app.py:62-108`, mirrored by
`loan_rate_agent.py:47-73`).

`save_config` writes the sheet row
`[name, url, json.dumps(patterns), iframe_check or ""]`;
`load_configs` reads it back, JSON-decoding the patterns cell and
mapping a falsy anchor cell to `None`.  `json.dumps` /`json.loads`
are modelled on the fragment they are applied to: objects mapping
strings to strings, serialized with the default separators
(`'{"k": "v", "k2": "v2"}'`) and the default escaping, which for the
ASCII pattern strings involved escapes exactly `"` and `\`.
-/

/-- JSON string-content escaping of `json.dumps` restricted to the
printable-ASCII strings this program stores. -/
def jsonEscape : List Char → List Char
  | [] => []
  | c :: t =>
    if c = '"' ∨ c = '\\' then '\\' :: c :: jsonEscape t
    else c :: jsonEscape t

/-- One serialized `"key": "value"` member. -/
def jsonMember (kv : String × String) : List Char :=
  '"' :: jsonEscape kv.1.data ++ '"' :: ':' :: ' ' :: '"' :: jsonEscape kv.2.data ++ ['"']

/-- Serialized members joined with `", "`. -/
def jsonMembers : List (String × String) → List Char
  | [] => []
  | [kv] => jsonMember kv
  | kv :: rest => jsonMember kv ++ ',' :: ' ' :: jsonMembers rest

/-- `json.dumps` of a string-to-string mapping with default options. -/
def jsonDumps (ps : List (String × String)) : String :=
  String.mk ('\x7b' :: jsonMembers ps ++ ['\x7d'])

/-- Inverse of the string escaping: consume characters until the
closing unescaped `"`, mapping `\c` to `c` (the serialized form only
contains `\"` and `\\`). -/
def jsonStrBody : List Char → Option (List Char × List Char)
  | [] => none
  | '"' :: r => some ([], r)
  | '\\' :: c2 :: r2 => (jsonStrBody r2).map (fun p => (c2 :: p.1, p.2))
  | ['\\'] => none
  | c :: r => (jsonStrBody r).map (fun p => (c :: p.1, p.2))

/-- Parse one `"key": "value"` member. -/
def jsonParseMember (s : List Char) : Option ((String × String) × List Char) :=
  match s with
  | '"' :: r =>
    match jsonStrBody r with
    | some (k, ':' :: ' ' :: '"' :: r2) =>
      match jsonStrBody r2 with
      | some (v, r3) => some ((String.mk k, String.mk v), r3)
      | none => none
    | _ => none
  | _ => none

/-- Parse the members of a nonempty object followed by the closing
brace; the fuel is an upper bound on the member count. -/
def jsonParseMembers : Nat → List Char → Option (List (String × String) × List Char)
  | 0, _ => none
  | fuel + 1, s =>
    match jsonParseMember s with
    | none => none
    | some (kv, r) =>
      match r with
      | '\x7d' :: r2 => some ([kv], r2)
      | ',' :: ' ' :: r2 =>
        match jsonParseMembers fuel r2 with
        | some (ps, r3) => some (kv :: ps, r3)
        | none => none
      | _ => none

/-- `json.loads` of a patterns cell, on the grammar `json.dumps`
produces for string-to-string mappings; `none` models the exception
that makes `load_configs` skip the row. -/
def jsonLoads (s : String) : Option (List (String × String)) :=
  match s.data with
  | '\x7b' :: rest =>
    if rest = ['\x7d'] then some []
    else
      match jsonParseMembers rest.length rest with
      | some (ps, []) => some ps
      | _ => none
  | _ => none

/-- A raw sheet row of the `Configs` worksheet: the four cells
`name, url, patterns, iframe_check` (`app.py:99-105`). -/
structure SheetRow where
  name : String
  url : String
  patterns : String
  iframe_check : String
deriving DecidableEq

/-- `save_config` (`app.py:90-106`): the appended row, with
`json.dumps(patterns)` and `iframe_check or ""`. -/
def save_config (c : Config) : SheetRow :=
  ⟨c.name, c.url, jsonDumps c.patterns, c.iframe_check.getD ""⟩

/-- Reading one `Configs` row back (`app.py:73-85`,
`loan_rate_agent.py:58-69`): the patterns cell is JSON-decoded (a
failure skips the row) and a falsy anchor cell becomes `None`. -/
def loadConfigRow (r : SheetRow) : Option Config :=
  match jsonLoads r.patterns with
  | none => none
  | some ps =>
    some ⟨r.name, r.url,
          (if r.iframe_check = "" then none else some r.iframe_check), ps⟩

/-- The `add_bank_form` persistence flow (`app.py:281-390`): nothing
is saved when the URL is already tracked; an empty analyzer output
saves nothing; a fresh config is appended unless its name collides. -/
def addBankPersist (existing : List Config) (newUrl : String)
    (out : Option GenConfig) : List Config :=
  if existing.any (fun c => c.url = newUrl) then existing
  else
    match out with
    | none => existing
    | some g =>
      if existing.any (fun c => c.name = g.name) then existing
      else existing ++ [⟨g.name, g.url, g.iframe_check, g.patterns⟩]

/-!
Auxiliary predicates and spec-side definitions used by the claims.
-/

/-- A per-pattern replay step that raises no exception: the engine
does not fail and, on a match, both groups can be read. -/
def outcomeOk : SearchOutcome → Bool
  | .engineFail => false
  | .noMatch => true
  | .found g1 g2 => decide (g1 ≠ .gAbsent) && decide (g2 ≠ .gAbsent)

/-- A frame that does not yield the anchor: unreadable, or its text
lacks the anchor substring. -/
def frameMisses (anchor : String) : Except Unit String → Bool
  | .ok s => !containsStr s anchor
  | .error _ => true

/-- Anchor normalization performed by a save/load round trip: `None`
and the empty string both come back as `None`. -/
def normAnchor : Option String → Option String
  | some s => if s = "" then none else some s
  | none => none

/-- Modelled from the spec: the claim's domain-derived fallback name,
"strip a leading `www.`, take the first label, title-case it, append
the auto-derived marker" — to be compared with what the code
computes. -/
def specHostNameLeading (url : String) : String :=
  let domain := netloc url
  let domain :=
    if prefixCS "www.".data domain.data then String.mk (domain.data.drop 4)
    else domain
  pyTitle (String.mk (takeUntilCh '.' domain.data)) ++ " (Auto-named)"

/-- Modelled from the spec: the full name fallback chain in the
spec's own phrasing — truncate the title at the first `|` or `-` and
trim; use it when it mentions bank/credit union; otherwise prefer the
first body-text bank-name match; otherwise derive from the host —
with the domain clause amended to remove every occurrence of `www.`
(which is what forces the correction). -/
def specNameChain (title mainText url : String) : String :=
  let cand := pyStrip (String.mk (title.data.takeWhile (fun c => c ≠ '|' && c ≠ '-')))
  if containsStr (lowerStr cand) "bank" || containsStr (lowerStr cand) "credit union" then
    cand
  else
    match nameSearch mainText.data with
    | some m => pyStrip (String.mk m)
    | none =>
      pyTitle (String.mk (takeUntilCh '.' (pyReplace (netloc url) "www." "").data))
        ++ " (Auto-named)"

/-!
Concrete fixtures for counterexamples and witnesses.
-/

/-- An engine on which no stored pattern matches (a page whose text
moved away). -/
def noMatchEng : Engine := fun _ _ => .noMatch

/-- Engine modelling Python `re` on two concrete stored patterns
against the target text `"ab"`: `re.search("(a)(b)", "ab")` matches
with groups `"a"`, `"b"`; `re.search("(a)", "ab")` matches but the
pattern has a single group, so `match.group(2)` raises `IndexError`. -/
def mixEng : Engine := fun p _ =>
  if p = "(a)(b)" then .found (.gStr "a") (.gStr "b")
  else if p = "(a)" then .found (.gStr "a") .gAbsent
  else .noMatch

/-- An engine whose patterns always match with two readable groups. -/
def twoGroupEng : Engine := fun _ _ => .found (.gStr "6.125") (.gStr "6.250")

/-- Config whose second stored pattern has only one capture group. -/
def mixCfg : Config :=
  ⟨"Mix Bank", "https://mix.example/rates", none,
   [("Fixed 30", "(a)(b)"), ("Fixed 15", "(a)")]⟩

/-- Config with a frame anchor that no frame below contains. -/
def anchoredCfg : Config :=
  ⟨"Anchored Bank", "https://anchored.example/rates", some "RateTable",
   [("Fixed 30", "p30"), ("Fixed 15", "p15")]⟩

/-- Acquisition with two readable frames (neither containing
`"RateTable"`) and one unreadable frame. -/
def anchoredAcq : Acq :=
  .loaded [.ok "frame one text", .error (), .ok "frame two text"] (.ok "main body text")

/-- Plain single-pattern config for timestamp/ordering witnesses. -/
def plainCfg : Config :=
  ⟨"Plain Bank", "https://plain.example/rates", none, [("Fixed 30", "pat30")]⟩

/-- Spec scenario: keyword-anchored text with two percentages. -/
def scenarioText1 : String := "30 Year Fixed ... 6.125% ... 6.250%"

/-- Spec scenario: keyword-anchored text with three percentages in
the order the spec writes them (points first). -/
def scenarioText2 : String := "Fixed 30 ... 0.500% ... 6.000% ... 6.125%"

/-- The scenario text with the points value actually in the middle,
as the spec's parenthetical describes. -/
def scenarioText2Mid : String := "Fixed 30 ... 6.000% ... 0.500% ... 6.125%"

/-- Spec scenario: Provident-style numeric table row. -/
def providentText : String := "30 0.000% 6.125% 6.147%"

/-!
Helper lemmas about the scrape loop.
-/

theorem scrapeAux_eq (ts : String) (eng : Engine) :
    ∀ (items : List (Config × Acq)) (acc : List Row),
      scrapeAux ts eng items acc =
        acc ++ (items.map (fun ca => processConfig ts eng ca.1 ca.2)).flatten := by
  intro items
  induction items with
  | nil => intro acc; simp [scrapeAux]
  | cons ca rest ih =>
    intro acc
    cases ca with
    | mk c a => simp [scrapeAux, ih]

theorem matchLoopAux_acc (ts bank : String) (eng : Engine) (text : String) :
    ∀ (pats : List (String × String)) (acc : List Row),
      matchLoopAux ts bank eng text pats acc =
        acc ++ matchLoopAux ts bank eng text pats [] := by
  intro pats
  induction pats with
  | nil => intro acc; simp [matchLoopAux]
  | cons lp rest ih =>
    intro acc
    obtain ⟨label, pat⟩ := lp
    cases h : eng pat text with
    | engineFail => simp [matchLoopAux, h]
    | noMatch => simp only [matchLoopAux, h]; exact ih acc
    | found g1 g2 =>
      cases hm : matchRow ts bank label g1 g2 with
      | none => simp [matchLoopAux, h, hm]
      | some row =>
        simp only [matchLoopAux, h, hm, List.nil_append]
        rw [ih (acc ++ [row]), ih [row]]
        simp

theorem matchRow_some (ts bank label : String) (g1 g2 : GroupVal)
    (h1 : g1 ≠ .gAbsent) (h2 : g2 ≠ .gAbsent) :
    ∃ r, matchRow ts bank label g1 g2 = some r := by
  cases g1 <;> cases g2 <;> simp_all [matchRow, groupText]

theorem matchRow_date (ts bank label : String) (g1 g2 : GroupVal) (r : Row)
    (h : matchRow ts bank label g1 g2 = some r) : r.date = ts := by
  cases g1 <;> cases g2 <;>
      simp only [matchRow, groupText, Option.some.injEq] at h <;>
    first
      | exact Option.noConfusion h
      | (subst h; rfl)

theorem matchLoop_shape (ts bank : String) (eng : Engine) (text : String) :
    ∀ pats : List (String × String),
      ∃ (pre : List (String × String)) (b : Bool),
        pre <+: pats ∧
        matchLoopAux ts bank eng text pats [] =
          pre.filterMap (rowOf ts bank eng text) ++
            (if b then [errorRow ts bank] else []) ∧
        (b = false → pre = pats) := by
  intro pats
  induction pats with
  | nil => exact ⟨[], false, List.nil_prefix, by simp [matchLoopAux], fun _ => rfl⟩
  | cons lp rest ih =>
    obtain ⟨label, pat⟩ := lp
    cases h : eng pat text with
    | engineFail =>
      refine ⟨[], true, List.nil_prefix, ?_, by simp⟩
      simp [matchLoopAux, h]
    | noMatch =>
      obtain ⟨pre, b, hpre, heq, hb⟩ := ih
      refine ⟨(label, pat) :: pre, b, List.cons_prefix_cons.mpr ⟨rfl, hpre⟩, ?_, ?_⟩
      · simp only [matchLoopAux, h, List.filterMap_cons, rowOf, heq]
      · intro hbf; rw [hb hbf]
    | found g1 g2 =>
      cases hm : matchRow ts bank label g1 g2 with
      | none =>
        refine ⟨[], true, List.nil_prefix, ?_, by simp⟩
        simp [matchLoopAux, h, hm]
      | some row =>
        obtain ⟨pre, b, hpre, heq, hb⟩ := ih
        refine ⟨(label, pat) :: pre, b, List.cons_prefix_cons.mpr ⟨rfl, hpre⟩, ?_, ?_⟩
        · simp only [matchLoopAux, h, hm, List.filterMap_cons, rowOf]
          rw [matchLoopAux_acc ts bank eng text rest ([] ++ [row]), heq]
          simp
        · intro hbf; rw [hb hbf]

theorem matchLoopAux_date (ts bank : String) (eng : Engine) (text : String) :
    ∀ (pats : List (String × String)) (acc : List Row),
      (∀ r ∈ acc, r.date = ts) →
      ∀ r ∈ matchLoopAux ts bank eng text pats acc, r.date = ts := by
  intro pats
  induction pats with
  | nil => intro acc hacc; exact hacc
  | cons lp rest ih =>
    intro acc hacc
    obtain ⟨label, pat⟩ := lp
    cases h : eng pat text with
    | engineFail =>
      simp only [matchLoopAux, h]
      intro r hr
      rcases List.mem_append.mp hr with h' | h'
      · exact hacc r h'
      · simp only [List.mem_singleton] at h'; rw [h']; rfl
    | noMatch =>
      simp only [matchLoopAux, h]
      exact ih acc hacc
    | found g1 g2 =>
      cases hm : matchRow ts bank label g1 g2 with
      | none =>
        simp only [matchLoopAux, h, hm]
        intro r hr
        rcases List.mem_append.mp hr with h' | h'
        · exact hacc r h'
        · simp only [List.mem_singleton] at h'; rw [h']; rfl
      | some row =>
        simp only [matchLoopAux, h, hm]
        refine ih (acc ++ [row]) ?_
        intro r hr
        rcases List.mem_append.mp hr with h' | h'
        · exact hacc r h'
        · simp only [List.mem_singleton] at h'
          rw [h']; exact matchRow_date ts bank label g1 g2 row hm

theorem processConfig_date (ts : String) (eng : Engine) (c : Config) (a : Acq) :
    ∀ r ∈ processConfig ts eng c a, r.date = ts := by
  cases a with
  | navFail =>
    intro r hr
    simp only [processConfig, List.mem_singleton] at hr
    rw [hr]; rfl
  | loaded frames mt =>
    cases hA : anchorOf c with
    | some an =>
      cases hF : findFrame an frames with
      | none => intro r hr; simp [processConfig, hA, hF] at hr
      | some t =>
        intro r hr
        simp only [processConfig, hA, hF] at hr
        exact matchLoopAux_date ts c.name eng t c.patterns [] (by simp) r hr
    | none =>
      cases mt with
      | error e =>
        intro r hr
        simp only [processConfig, hA, List.mem_singleton] at hr
        rw [hr]; rfl
      | ok t =>
        intro r hr
        simp only [processConfig, hA] at hr
        exact matchLoopAux_date ts c.name eng t c.patterns [] (by simp) r hr

theorem findFrame_none_of_misses (an : String) :
    ∀ frames : List (Except Unit String),
      (∀ f ∈ frames, frameMisses an f = true) → findFrame an frames = none := by
  intro frames
  induction frames with
  | nil => intro _; rfl
  | cons f rest ih =>
    intro h
    cases f with
    | error e => exact ih (fun g hg => h g (List.mem_cons_of_mem _ hg))
    | ok s =>
      have hs := h (.ok s) (List.mem_cons_self _ _)
      simp only [frameMisses, Bool.not_eq_true'] at hs
      simp only [findFrame, hs, if_false, Bool.false_eq_true]
      exact ih (fun g hg => h g (List.mem_cons_of_mem _ hg))

/-!
Claim theorems: frame anchor miss (C1).
-/

/-- C1 counterexample: a source whose `iframe_check` anchor
(`"RateTable"`) is contained in no acquired frame contributes NO rows
at all to the batch run — in particular not the single Error sentinel
row the claim requires. -/
theorem c1_counterexample :
    scrape_rates "T1" noMatchEng [(anchoredCfg, anchoredAcq)] = []
  ∧ errorRow "T1" "Anchored Bank" ∉ scrape_rates "T1" noMatchEng [(anchoredCfg, anchoredAcq)] := by
  decide

/-- C1 (amended): when a source's frame anchor is set (truthy) and
every acquired frame either is unreadable or lacks the anchor
substring, the source loop executes `continue` and the source
contributes no rows at all — a silent empty contribution, with no
Error sentinel row. -/
theorem c1_frame_miss_is_silent :
    ∀ (ts : String) (eng : Engine) (c : Config)
      (frames : List (Except Unit String)) (mt : Except Unit String) (an : String),
      anchorOf c = some an →
      (∀ f ∈ frames, frameMisses an f = true) →
      processConfig ts eng c (.loaded frames mt) = [] := by
  intro ts eng c frames mt an hA hM
  simp [processConfig, hA, findFrame_none_of_misses an frames hM]

/-- C1 witness: the amended theorem applied to the concrete anchored
fixture. -/
theorem c1_frame_miss_witness :
    processConfig "T1" noMatchEng anchoredCfg anchoredAcq = [] :=
  c1_frame_miss_is_silent "T1" noMatchEng anchoredCfg
    [.ok "frame one text", .error (), .ok "frame two text"] (.ok "main body text")
    "RateTable" (by decide) (by decide)

/-!
Claim theorems: per-source contribution shape (C2).
-/

/-- C2 counterexample: with a stored pattern list whose first pattern
matches and whose second is a one-group pattern (so `match.group(2)`
raises `IndexError`), one source's contribution contains both a
normal extraction row and the Error sentinel row in the same run. -/
theorem c2_counterexample :
    (∃ r ∈ scrape_rates "T2" mixEng [(mixCfg, .loaded [] (.ok "ab"))], r.loanType = "Error")
  ∧ (∃ r ∈ scrape_rates "T2" mixEng [(mixCfg, .loaded [] (.ok "ab"))], r.loanType ≠ "Error") := by
  decide

/-- C2 (amended): a source's contribution to a batch run is the
per-LoanType rows of a prefix of its patterns, in declaration order,
optionally followed by exactly one Error sentinel row; when no
sentinel is emitted the prefix is the whole pattern list (all
patterns were attempted) unless the contribution is the silent empty
one of a frame-anchor miss.  In particular a sentinel never precedes
a normal row and never occurs twice. -/
theorem c2_contribution_shape :
    ∀ (ts : String) (eng : Engine) (c : Config) (a : Acq),
      ∃ (text : String) (pre : List (String × String)) (b : Bool),
        pre <+: c.patterns ∧
        processConfig ts eng c a =
          pre.filterMap (rowOf ts c.name eng text) ++
            (if b then [errorRow ts c.name] else []) ∧
        (b = false → pre = c.patterns ∨ processConfig ts eng c a = []) := by
  intro ts eng c a
  cases a with
  | navFail =>
    exact ⟨"", [], true, List.nil_prefix, by simp [processConfig], by simp⟩
  | loaded frames mt =>
    cases hA : anchorOf c with
    | some an =>
      cases hF : findFrame an frames with
      | none =>
        refine ⟨"", [], false, List.nil_prefix, ?_, fun _ => Or.inr ?_⟩ <;>
          simp [processConfig, hA, hF]
      | some t =>
        obtain ⟨pre, b, hpre, heq, hb⟩ := matchLoop_shape ts c.name eng t c.patterns
        refine ⟨t, pre, b, hpre, ?_, fun hbf => Or.inl (hb hbf)⟩
        simp [processConfig, hA, hF, heq]
    | none =>
      cases mt with
      | error e =>
        exact ⟨"", [], true, List.nil_prefix, by simp [processConfig, hA], by simp⟩
      | ok t =>
        obtain ⟨pre, b, hpre, heq, hb⟩ := matchLoop_shape ts c.name eng t c.patterns
        refine ⟨t, pre, b, hpre, ?_, fun hbf => Or.inl (hb hbf)⟩
        simp [processConfig, hA, heq]

/-!
Claim theorems: single run timestamp (C6).
-/

/-- C6: every row a batch run emits — normal rows and Error sentinel
rows alike — carries the single timestamp value `ts` computed once
before the source loop; no row of one run carries a different
timestamp. -/
theorem c6_single_timestamp :
    ∀ (ts : String) (eng : Engine) (items : List (Config × Acq)),
      ∀ r ∈ scrape_rates ts eng items, r.date = ts := by
  intro ts eng items r hr
  rw [scrape_rates, scrapeAux_eq ts eng items []] at hr
  simp only [List.nil_append, List.mem_flatten, List.mem_map] at hr
  obtain ⟨l, ⟨ca, _, hl⟩, hrl⟩ := hr
  exact processConfig_date ts eng ca.1 ca.2 r (hl ▸ hrl)

/-- C6 witness: the theorem applied to a concrete one-source run that
emits one row. -/
theorem c6_single_timestamp_witness :
    Row.date ⟨"T0", "Plain Bank", "Fixed 30", "6.125%", "6.250%"⟩ = "T0" :=
  c6_single_timestamp "T0" twoGroupEng [(plainCfg, .loaded [] (.ok "body"))]
    ⟨"T0", "Plain Bank", "Fixed 30", "6.125%", "6.250%"⟩ (by decide)

/-!
Claim theorems: emission order (C7).
-/

/-- C7: a batch run's result list is the concatenation, in input
config-list order, of the per-source contributions; and when no
pattern of a source raises, that source's contribution is exactly the
per-pattern rows in the declaration order of its patterns mapping. -/
theorem c7_emission_order :
    ∀ (ts : String) (eng : Engine) (items : List (Config × Acq)),
      scrape_rates ts eng items =
        (items.map (fun ca => processConfig ts eng ca.1 ca.2)).flatten
    ∧ ∀ (bank text : String) (pats : List (String × String)),
        (∀ lp ∈ pats, outcomeOk (eng lp.2 text) = true) →
        matchLoopAux ts bank eng text pats [] =
          pats.filterMap (rowOf ts bank eng text) := by
  intro ts eng items
  constructor
  · rw [scrape_rates, scrapeAux_eq ts eng items []]; simp
  · intro bank text pats
    induction pats with
    | nil => intro _; rfl
    | cons lp rest ih =>
      intro hok
      obtain ⟨label, pat⟩ := lp
      have h0 := hok (label, pat) (List.mem_cons_self _ _)
      cases h : eng pat text with
      | engineFail => rw [h] at h0; simp [outcomeOk] at h0
      | noMatch =>
        simp only [matchLoopAux, h, List.filterMap_cons, rowOf]
        exact ih (fun lp hlp => hok lp (List.mem_cons_of_mem _ hlp))
      | found g1 g2 =>
        rw [h] at h0
        simp only [outcomeOk, Bool.and_eq_true, decide_eq_true_eq] at h0
        obtain ⟨row, hrow⟩ := matchRow_some ts bank label g1 g2 h0.1 h0.2
        simp only [matchLoopAux, h, hrow, List.filterMap_cons, rowOf]
        rw [matchLoopAux_acc ts bank eng text rest ([] ++ [row]),
          ih (fun lp hlp => hok lp (List.mem_cons_of_mem _ hlp))]
        simp

/-- C7 witness: the ordering theorem's pattern-loop clause applied to
a concrete source whose single pattern matches cleanly. -/
theorem c7_emission_order_witness :
    matchLoopAux "T3" "Plain Bank" twoGroupEng "body" [("Fixed 30", "pat30")] [] =
      [("Fixed 30", "pat30")].filterMap (rowOf "T3" "Plain Bank" twoGroupEng "body") :=
  (c7_emission_order "T3" twoGroupEng []).2 "Plain Bank" "body"
    [("Fixed 30", "pat30")] (by decide)

/-!
Claim theorems: rate/APR disambiguation (C3).
-/

/-- C3: for a probe match with three decimal numbers `(v1, v2, v3)`,
the synthesizer selects `(v1, v3)` as (rate, APR) when `v2 < v1` and
`(v1, v2)` otherwise (also with only two numbers), and the rule is
the same function of the values in the keyword-anchored path and the
table-row fallback path, each of which renders its result from the
shared disambiguation. -/
theorem c3_disambiguation :
    ∀ (v1 v2 v3 : Dec) (terms : List String) (label text t : String) (o3 : Option Dec),
      keywordDisamb v1 v2 (some v3) = tableDisamb v1 v2 v3
    ∧ tableDisamb v1 v2 v3 = (if decToQ v2 < decToQ v1 then (v1, v3) else (v1, v2))
    ∧ keywordDisamb v1 v2 none = (v1, v2)
    ∧ (keywordFirst terms text = some (t, v1, v2, o3) →
        keywordStep terms text =
          some ((if keywordUsesThird v1 v2 o3 then patK3 (cleanTerm t) else patK2 (cleanTerm t)),
            ⟨pyRepr (keywordDisamb v1 v2 o3).1 ++ "%",
             pyRepr (keywordDisamb v1 v2 o3).2 ++ "%"⟩))
    ∧ (tableSearch3 (if containsStr label "30" then "30" else "15") text = some (v1, v2, v3) →
        tableStep label text =
          some ((if decToQ v2 < decToQ v1
                  then patT3 (if containsStr label "30" then "30" else "15")
                  else patT2 (if containsStr label "30" then "30" else "15")),
            ⟨pyRepr (tableDisamb v1 v2 v3).1 ++ "%",
             pyRepr (tableDisamb v1 v2 v3).2 ++ "%"⟩)) := by
  intro v1 v2 v3 terms label text t o3
  refine ⟨rfl, rfl, rfl, ?_, ?_⟩
  · intro h
    simp only [keywordStep, h]
  · intro h
    simp only [tableStep, h]
    by_cases hlt : decToQ v2 < decToQ v1 <;> simp [hlt]

/-!
Claim theorems: synthesis scenarios (C4) and the table fallback (C5).
-/

/-- C4 counterexample: on the first scenario text the synthesized APR
sample is `"6.25%"` (the values pass through `float`, which drops the
trailing zero of `"6.250"`), not `"6.250%"`; and on the second
scenario text as literally written the middle number is not smaller,
so the rate sample is `"0.5%"`, not `"6.000%"`. -/
theorem c4_counterexample :
    (synthOne "Fixed 30" fixed30Terms scenarioText1).map (fun r => r.2.apr) = some "6.25%"
  ∧ ("6.25%" : String) ≠ "6.250%"
  ∧ (synthOne "Fixed 30" fixed30Terms scenarioText2).map (fun r => r.2.rate) = some "0.5%"
  ∧ ("0.5%" : String) ≠ "6.000%" := by
  decide

/-- C4 (amended): `"30 Year Fixed ... 6.125% ... 6.250%"` synthesizes
the two-capture pattern with samples rate `"6.125%"`, APR `"6.25%"`
(float rendering trims trailing zeros rather than reproducing the
text verbatim); `"Fixed 30 ... 0.500% ... 6.000% ... 6.125%"` — whose
middle number is not the smaller one — yields rate `"0.5%"`, APR
`"6.0%"`; with the points value actually in the middle
(`"Fixed 30 ... 6.000% ... 0.500% ... 6.125%"`) synthesis emits the
points-skipping pattern with rate `"6.0%"`, APR `"6.125%"`. -/
theorem c4_scenarios :
    synthOne "Fixed 30" fixed30Terms scenarioText1 =
      some (patK2 (cleanTerm "30 Year Fixed"), ⟨"6.125%", "6.25%"⟩)
  ∧ synthOne "Fixed 30" fixed30Terms scenarioText2 =
      some (patK2 (cleanTerm "Fixed 30"), ⟨"0.5%", "6.0%"⟩)
  ∧ synthOne "Fixed 30" fixed30Terms scenarioText2Mid =
      some (patK3 (cleanTerm "Fixed 30"), ⟨"6.0%", "6.125%"⟩) := by
  decide

/-- C5: on the Provident-style table text `"30 0.000% 6.125% 6.147%"`
with no "Fixed" keyword, the fallback's three-number pattern matches
first and captures the leading points column as `v1`; since
`6.125 < 0.0` is false the code selects `(0.000, 6.125)` and emits
rate `"0.0%"`, APR `"6.125%"` — not the `(6.125, 6.147)` pair that
the claim (and the code's own comments about the points-skipping
`table_pattern`) describe. -/
theorem c5_table_points_bug :
    synthOne "Fixed 30" fixed30Terms providentText =
      some (patT2 "30", ⟨"0.0%", "6.125%"⟩)
  ∧ tableSearch3 "30" providentText =
      some (⟨['0'], ['0', '0', '0']⟩, ⟨['6'], ['1', '2', '5']⟩, ⟨['6'], ['1', '4', '7']⟩) := by
  decide

/-!
Claim theorems: name fallback chain (C8).
-/

theorem strMkData : ∀ s : String, String.mk s.data = s := by
  intro s; cases s; rfl

theorem takeUntil_pipe_dash (l : List Char) :
    takeUntilCh '-' (takeUntilCh '|' l) =
      l.takeWhile (fun c => c ≠ '|' && c ≠ '-') := by
  induction l with
  | nil => rfl
  | cons c rest ih =>
    by_cases h1 : c = '|'
    · simp [takeUntilCh, h1]
    · by_cases h2 : c = '-'
      · simp [takeUntilCh, h1, h2]
      · simp only [takeUntilCh, ne_eq, decide_not] at ih
        simp [takeUntilCh, h1, h2, ih]

theorem replaceAux_of_not_contains (pat rep : List Char) :
    ∀ (s : List Char) (fuel : Nat), containsL pat s = false → s.length ≤ fuel →
      replaceAux pat rep fuel s = s := by
  intro s
  induction s with
  | nil => intro fuel _ _; cases fuel <;> rfl
  | cons c rest ih =>
    intro fuel hc hf
    cases fuel with
    | zero => simp at hf
    | succ f =>
      simp only [containsL, Bool.or_eq_false_iff] at hc
      simp only [replaceAux]
      rw [if_neg (by simp [hc.1])]
      rw [ih f hc.2 (by simpa using hf)]

theorem pyReplace_of_not_contains (s pat rep : String)
    (h : containsStr s pat = false) : pyReplace s pat rep = s := by
  rw [pyReplace, replaceAux_of_not_contains pat.data rep.data s.data s.data.length h le_rfl,
    strMkData]

/-- C8 counterexample: for the host `xwww.foo.com` the code's
`domain.replace("www.", "")` removes the inner occurrence of `"www."`
and names the source `"Xfoo (Auto-named)"`, while the claim's "strip
a leading `www.`" leaves the first label `xwww` and would name it
`"Xwww (Auto-named)"`. -/
theorem c8_counterexample :
    deriveName "Rates Today" "no names here" "https://xwww.foo.com/r" = "Xfoo (Auto-named)"
  ∧ specHostNameLeading "https://xwww.foo.com/r" = "Xwww (Auto-named)"
  ∧ deriveName "Rates Today" "no names here" "https://xwww.foo.com/r" ≠
      specHostNameLeading "https://xwww.foo.com/r" := by
  decide

/-- C8 (amended): the name is chosen by the claimed chain — the title
truncated at the first `|` or `-` and trimmed, used as-is when it
mentions "bank" or "credit union" case-insensitively; otherwise the
first body-text capitalized-sequence match ending in Bank/Credit
Union; otherwise the URL host with every occurrence of the substring
`"www."` removed (not only a leading one), first label, title-cased,
plus the auto-derived marker. -/
theorem c8_name_chain :
    ∀ (title mainText url : String),
      deriveName title mainText url = specNameChain title mainText url := by
  intro title mainText url
  by_cases hw : containsStr (netloc url) "www." = true
  · simp [deriveName, specNameChain, takeUntil_pipe_dash, hw]
  · have hrw := pyReplace_of_not_contains (netloc url) "www." ""
      (by simpa using hw)
    simp [deriveName, specNameChain, takeUntil_pipe_dash, hw, hrw]

/-!
Claim theorems: no empty patterns are persisted (C9).
-/

/-- C9: when zero loan types produce a pattern the synthesizer
returns no config (`NoPatternsFound`); a produced config always has a
nonempty patterns mapping; the add-bank flow persists nothing when
the synthesizer produced nothing; and every config the flow persists
either already existed or has a nonempty patterns mapping. -/
theorem c9_no_empty_config :
    ∀ (url title mainText : String) (frames : List (Except Unit String)),
      (synthPatterns (synthTarget mainText frames).1 = [] →
        analyze_url url title mainText frames = none)
    ∧ (∀ g, analyze_url url title mainText frames = some g → g.patterns ≠ [])
    ∧ (∀ (existing : List Config) (newUrl : String),
        addBankPersist existing newUrl none = existing)
    ∧ (∀ (existing : List Config) (newUrl : String) (g : GenConfig) (c : Config),
        analyze_url url title mainText frames = some g →
        c ∈ addBankPersist existing newUrl (some g) →
        c ∈ existing ∨ c.patterns ≠ []) := by
  intro url title mainText frames
  have hpat : ∀ g, analyze_url url title mainText frames = some g → g.patterns ≠ [] := by
    intro g hg
    simp only [analyze_url] at hg
    by_cases hps : (synthPatterns (synthTarget mainText frames).1).isEmpty
    · rw [if_pos hps] at hg; exact Option.noConfusion hg
    · rw [if_neg hps] at hg
      cases hg
      simpa [List.isEmpty_iff] using hps
  refine ⟨?_, hpat, ?_, ?_⟩
  · intro h
    simp [analyze_url, h]
  · intro existing newUrl
    unfold addBankPersist
    split <;> rfl
  · intro existing newUrl g c hg hc
    simp only [addBankPersist] at hc
    by_cases h1 : (existing.any fun cc => cc.url = newUrl) = true
    · rw [if_pos h1] at hc; exact Or.inl hc
    · rw [if_neg h1] at hc
      by_cases h2 : (existing.any fun cc => cc.name = g.name) = true
      · rw [if_pos h2] at hc; exact Or.inl hc
      · rw [if_neg h2] at hc
        rcases List.mem_append.mp hc with h' | h'
        · exact Or.inl h'
        · simp only [List.mem_singleton] at h'
          refine Or.inr ?_
          rw [h']
          exact hpat g hg

/-- C9 witness: a concrete page on which synthesis succeeds yields a
config whose patterns mapping is nonempty. -/
theorem c9_no_empty_config_witness :
    GenConfig.patterns
      ⟨"Acme Bank", "https://www.acme.com/rates", none,
        [("Fixed 30", patK2 (cleanTerm "30 Year Fixed"))],
        [("Fixed 30", ⟨"6.125%", "6.25%"⟩)]⟩ ≠ [] :=
  (c9_no_empty_config "https://www.acme.com/rates" "Acme Bank | Rates"
      "30 Year Fixed 6.125% 6.250%" []).2.1 _ (by decide)

/-!
Claim theorems: config save/load round trip (C10).
-/

theorem jsonStrBody_escape :
    ∀ (k rest : List Char), jsonStrBody (jsonEscape k ++ '"' :: rest) = some (k, rest) := by
  intro k
  induction k with
  | nil => intro rest; simp [jsonEscape, jsonStrBody]
  | cons c t ih =>
    intro rest
    by_cases h1 : c = '"' ∨ c = '\\'
    · simp only [jsonEscape, if_pos h1, List.cons_append]
      simp [jsonStrBody, ih]
    · push_neg at h1
      obtain ⟨hq, hb⟩ := h1
      simp only [jsonEscape, if_neg (by tauto : ¬(c = '"' ∨ c = '\\')), List.cons_append]
      simp [jsonStrBody, hq, hb, ih]

theorem jsonParseMember_append (kv : String × String) (tail : List Char) :
    jsonParseMember (jsonMember kv ++ tail) = some (kv, tail) := by
  obtain ⟨k, v⟩ := kv
  simp [jsonMember, jsonParseMember, jsonStrBody_escape, strMkData,
    List.append_assoc]

theorem jsonMembers_len : ∀ ps : List (String × String), ps.length ≤ (jsonMembers ps).length := by
  intro ps
  induction ps with
  | nil => simp [jsonMembers]
  | cons kv rest ih =>
    cases rest with
    | nil => simp [jsonMembers, jsonMember]
    | cons kv2 rest2 =>
      simp only [jsonMembers, jsonMember, List.length_cons, List.length_append] at ih ⊢
      omega

theorem jsonParseMembers_dump :
    ∀ (ps : List (String × String)) (fuel : Nat) (tail : List Char),
      ps ≠ [] → ps.length ≤ fuel →
      jsonParseMembers fuel (jsonMembers ps ++ '\x7d' :: tail) = some (ps, tail) := by
  intro ps
  induction ps with
  | nil => intro fuel tail h _; exact absurd rfl h
  | cons kv rest ih =>
    intro fuel tail _ hf
    cases fuel with
    | zero => simp at hf
    | succ f =>
      cases rest with
      | nil =>
        simp only [jsonMembers, jsonParseMembers, jsonParseMember_append]
      | cons kv2 rest2 =>
        simp only [jsonMembers, List.append_assoc, List.cons_append,
          jsonParseMembers, jsonParseMember_append]
        rw [ih f tail (by simp) (by simpa using hf)]

theorem jsonLoads_dumps : ∀ ps : List (String × String), jsonLoads (jsonDumps ps) = some ps := by
  intro ps
  cases ps with
  | nil => rfl
  | cons kv rest =>
    have hne : jsonMembers (kv :: rest) ++ ['\x7d'] ≠ ['\x7d'] := by
      cases rest <;> simp [jsonMembers, jsonMember]
    have hlen : (kv :: rest).length ≤ (jsonMembers (kv :: rest) ++ ['\x7d']).length := by
      have := jsonMembers_len (kv :: rest)
      simp only [List.length_append, List.length_singleton]
      omega
    simp only [jsonDumps, jsonLoads, List.cons_append]
    rw [if_neg hne]
    have := jsonParseMembers_dump (kv :: rest)
      (jsonMembers (kv :: rest) ++ ['\x7d']).length [] (by simp) hlen
    simp only [List.append_nil] at this ⊢
    rw [this]

/-- C10: a config saved by `save_config` and read back by the config
loader round-trips — same name, same url, same patterns mapping (for
a genuine mapping, i.e. distinct keys), and a frame anchor that comes
back unchanged when it is a nonempty string and as `None` when it was
unset or empty (unset is stored as the empty cell). -/
theorem c10_roundtrip :
    ∀ c : Config, (c.patterns.map Prod.fst).Nodup →
      loadConfigRow (save_config c) =
        some ⟨c.name, c.url, normAnchor c.iframe_check, c.patterns⟩ := by
  intro c _
  obtain ⟨n, u, ifc, ps⟩ := c
  simp only [save_config, loadConfigRow, jsonLoads_dumps]
  cases ifc with
  | none => simp [normAnchor]
  | some s => by_cases hs : s = "" <;> simp [normAnchor, hs]

/-- C10 witness: round trip of a concrete config with a regex pattern
full of backslashes and an empty-string anchor. -/
theorem c10_roundtrip_witness :
    loadConfigRow (save_config
        ⟨"Acme Bank", "https://www.acme.com/rates", some "",
          [("Fixed 30", "Fixed\\s*30.*?(\\d+\\.\\d+)\\s*%.*?(\\d+\\.\\d+)\\s*%")]⟩) =
      some ⟨"Acme Bank", "https://www.acme.com/rates", none,
        [("Fixed 30", "Fixed\\s*30.*?(\\d+\\.\\d+)\\s*%.*?(\\d+\\.\\d+)\\s*%")]⟩ :=
  c10_roundtrip
    ⟨"Acme Bank", "https://www.acme.com/rates", some "",
      [("Fixed 30", "Fixed\\s*30.*?(\\d+\\.\\d+)\\s*%.*?(\\d+\\.\\d+)\\s*%")]⟩
    (by decide)

end RateTracker
